import Mathlib

/-!
# go-workflows: client result retrieval and the workflow analyzer

A shallow embedding of `client/client.go` and `analyzer/analyzer.go`.

Go values are embedded as follows.
* An `error` is a heap object: it has an identity (its address) and a message.
  `errors.New` and `errors.Wrap` of `github.com/pkg/errors` allocate a new
  object on every call, and `==` on errors compares identities.
* A function that may panic returns an `Outcome`.
* The `history` and `core` packages are not part of the sources at hand; the
  few constructors the client calls are modelled from the specification.
-/

namespace GoWorkflows

/-! ## Errors (`github.com/pkg/errors`) -/

/-- An error value. `addr` is the identity of the allocated object. -/
inductive GoError where
  /-- The `*fundamental` value built by `errors.New`. -/
  | fundamental (addr : Nat) (msg : String)
  /-- The `*withStack` value built by `errors.Wrap`. -/
  | withStack (addr : Nat) (msg : String) (cause : GoError)
  /-- An error value produced by another package. -/
  | foreign (addr : Nat) (msg : String)
  deriving DecidableEq, Repr

/-- The text of `err.Error()`. -/
def GoError.Error : GoError → String
  | .fundamental _ msg => msg
  | .withStack _ msg cause => msg ++ ": " ++ cause.Error
  | .foreign _ msg => msg

/-- The address of the object behind an error value. -/
def GoError.addr : GoError → Nat
  | .fundamental a _ => a
  | .withStack a _ _ => a
  | .foreign a _ => a

/-- `errors.New(msg)`, allocating at the free address `heap`. -/
def errorsNew (heap : Nat) (msg : String) : GoError :=
  .fundamental heap msg

/-- `errors.Wrap(err, msg)` for a non-nil `err`, allocating at the free address `heap`. -/
def errorsWrap (heap : Nat) (err : GoError) (msg : String) : GoError :=
  .withStack heap msg err

/-- `var ErrWorkflowCanceled = errors.New("workflow canceled")`, the first
allocation of the package initialiser. -/
def ErrWorkflowCanceled : GoError := errorsNew 0 "workflow canceled"

/-- `var ErrWorkflowTerminated = errors.New("workflow terminated")`, the second
allocation of the package initialiser. -/
def ErrWorkflowTerminated : GoError := errorsNew 1 "workflow terminated"

/-- The first address that is free once the package variables are initialised. -/
def initHeap : Nat := 2

/-! ## History events (`internal/history`, `internal/core`) -/

/-- An instant of `time.Time`. -/
abbrev Time := Int

/-- A serialised value (`[]byte` produced by the converter). -/
abbrev Payload := String

/-- The event type tags the client refers to; every other tag of the history
package is `other`. -/
inductive EventType where
  | WorkflowExecutionStarted
  | WorkflowExecutionFinished
  | WorkflowExecutionTerminated
  | WorkflowExecutionCanceled
  | SignalReceived
  | other (tag : Nat)
  deriving DecidableEq, Repr

structure ExecutionStartedAttributes where
  Name : String
  Inputs : List Payload
  deriving DecidableEq, Repr

structure ExecutionCompletedAttributes where
  Result : Payload
  Error : String
  deriving DecidableEq, Repr

structure SignalReceivedAttributes where
  Name : String
  Arg : Payload
  deriving DecidableEq, Repr

/-- The dynamic value of the `Attributes interface{}` field of an event. A
pointer payload may be a nil pointer of its type. -/
inductive Attributes where
  /-- The nil interface: no attributes at all. -/
  | absent
  | ExecutionStarted (a : Option ExecutionStartedAttributes)
  | ExecutionCompleted (a : Option ExecutionCompletedAttributes)
  | ExecutionCanceled
  | SignalReceived (a : Option SignalReceivedAttributes)
  | other (tag : Nat)
  deriving DecidableEq, Repr

structure HistoryEvent where
  SequenceID : Nat
  Timestamp : Time
  Typ : EventType
  Attributes : Attributes
  deriving DecidableEq, Repr

structure Instance where
  InstanceID : String
  ExecutionID : String
  deriving DecidableEq, Repr

structure WorkflowEvent where
  WorkflowInstance : Instance
  HistoryEvent : HistoryEvent
  deriving DecidableEq, Repr

/-- Modelled from the spec: `history.NewHistoryEvent`, which is not among the
sources. A history event is (sequence number, timestamp, type tag,
attributes); the sequence number is assigned when the event is appended, so a
new event carries none. -/
def NewHistoryEvent (timestamp : Time) (eventType : EventType) (attributes : Attributes) :
    HistoryEvent :=
  { SequenceID := 0, Timestamp := timestamp, Typ := eventType, Attributes := attributes }

/-- Modelled from the spec: `history.NewWorkflowCancellationEvent`, which is not
among the sources: the ExecutionCanceled event at the given timestamp. -/
def NewWorkflowCancellationEvent (timestamp : Time) : HistoryEvent :=
  NewHistoryEvent timestamp .WorkflowExecutionCanceled .ExecutionCanceled

/-- Modelled from the spec: `core.NewWorkflowInstance`, which is not among the
sources: the pair (instanceID, executionID). -/
def NewWorkflowInstance (instanceID executionID : String) : Instance :=
  { InstanceID := instanceID, ExecutionID := executionID }

/-! ## The client (`client/client.go`) -/

/-- A run-time panic. -/
inductive Panic where
  /-- A failed `x.(T)` type assertion. -/
  | typeAssertion
  /-- A nil pointer or nil interface dereference. -/
  | nilDereference
  /-- An index out of range. -/
  | indexOutOfRange
  deriving DecidableEq, Repr

/-- How a call ends: it returns a value and an error (nil is `none`), or it
panics. A function whose only result is an error returns the value `()`. -/
inductive Outcome (T : Type) where
  | returned (value : T) (err : Option GoError)
  | panicked (p : Panic)
  deriving DecidableEq, Repr

/-- The injected `clock.Clock`: what `Now()` returns. -/
structure Clock where
  Now : Time

/-- The ambient state of the process: what `time.Now()` and `uuid.NewString()`
return when called. -/
structure Ambient where
  timeNow : Time
  uuidNewString : String

/-- The two values of `backend.WorkflowState` the client tells apart. -/
inductive WorkflowState where
  | Active
  | Finished
  deriving DecidableEq, Repr

/-- The answers of a `backend.Backend`. `GetWorkflowInstanceState` is asked
repeatedly; its second argument is the number of earlier requests. -/
structure Backend where
  CreateWorkflowInstance : WorkflowEvent → Option GoError
  CancelWorkflowInstance : Instance → HistoryEvent → Option GoError
  SignalWorkflow : String → HistoryEvent → Option GoError
  GetWorkflowInstanceState : Instance → Nat → Except GoError WorkflowState
  GetWorkflowInstanceHistory : Instance → Except GoError (List HistoryEvent)

/-- A call received by the backend. -/
inductive BackendCall where
  | CreateWorkflowInstance (event : WorkflowEvent)
  | CancelWorkflowInstance (inst : Instance) (event : HistoryEvent)
  | SignalWorkflow (instanceID : String) (event : HistoryEvent)
  deriving DecidableEq, Repr

/-- The timestamp of the history event a backend call carries. -/
def BackendCall.eventTimestamp : BackendCall → Time
  | .CreateWorkflowInstance e => e.HistoryEvent.Timestamp
  | .CancelWorkflowInstance _ e => e.Timestamp
  | .SignalWorkflow _ e => e.Timestamp

/-- `type client struct { backend; clock }`. Both fields are interface values;
`none` is the nil interface (as in `New(nil)` or `&client{}`). -/
structure client where
  backend : Option Backend
  clock : Option Clock

structure WorkflowInstanceOptions where
  InstanceID : String

/-- What a client operation did: the backend calls it made, in order, and how
it ended. -/
structure Effect (R : Type) where
  calls : List BackendCall
  result : Outcome R

/-- The helpers of other packages that the client calls on its arguments:
`a.ArgsToInputs(converter.DefaultConverter, args...)`, `fn.Name(wf)` and
`converter.DefaultConverter.To(arg)`. -/
structure Helpers (W A : Type) where
  ArgsToInputs : List A → Except GoError (List Payload)
  fnName : W → String
  To : A → Except GoError Payload

/-- `func (c *client) CreateWorkflowInstance(ctx, options, wf, args...)`; the
value returned is the `*workflow.Instance`, `none` for nil. -/
def client.CreateWorkflowInstance {W A : Type} (c : client) (amb : Ambient) (heap : Nat)
    (hp : Helpers W A) (options : WorkflowInstanceOptions) (wf : W) (args : List A) :
    Effect (Option Instance) :=
  match hp.ArgsToInputs args with
  | .error err => ⟨[], .returned none (some (errorsWrap heap err "could not convert arguments"))⟩
  | .ok inputs =>
    match c.clock with
    | none => ⟨[], .panicked .nilDereference⟩
    | some clock =>
      let startedEvent := NewHistoryEvent clock.Now .WorkflowExecutionStarted
        (.ExecutionStarted (some { Name := hp.fnName wf, Inputs := inputs }))
      let wfi := NewWorkflowInstance options.InstanceID amb.uuidNewString
      let startMessage : WorkflowEvent :=
        { WorkflowInstance := wfi, HistoryEvent := startedEvent }
      match c.backend with
      | none => ⟨[], .panicked .nilDereference⟩
      | some backend =>
        match backend.CreateWorkflowInstance startMessage with
        | some err =>
          ⟨[.CreateWorkflowInstance startMessage],
            .returned none (some (errorsWrap heap err "could not create workflow instance"))⟩
        | none => ⟨[.CreateWorkflowInstance startMessage], .returned (some wfi) none⟩

/-- `func (c *client) CancelWorkflowInstance(ctx, instance)`. The timestamp is
`time.Now()`, the ambient wall clock. -/
def client.CancelWorkflowInstance (c : client) (amb : Ambient) (inst : Instance) :
    Effect Unit :=
  let cancellationEvent := NewWorkflowCancellationEvent amb.timeNow
  match c.backend with
  | none => ⟨[], .panicked .nilDereference⟩
  | some backend =>
    ⟨[.CancelWorkflowInstance inst cancellationEvent],
      .returned () (backend.CancelWorkflowInstance inst cancellationEvent)⟩

/-- `func (c *client) SignalWorkflow(ctx, instanceID, name, arg)`. -/
def client.SignalWorkflow {W A : Type} (c : client) (heap : Nat) (hp : Helpers W A)
    (instanceID : String) (name : String) (arg : A) : Effect Unit :=
  match hp.To arg with
  | .error err => ⟨[], .returned () (some (errorsWrap heap err "could not convert arguments"))⟩
  | .ok input =>
    match c.clock with
    | none => ⟨[], .panicked .nilDereference⟩
    | some clock =>
      let event := NewHistoryEvent clock.Now .SignalReceived
        (.SignalReceived (some { Name := name, Arg := input }))
      match c.backend with
      | none => ⟨[], .panicked .nilDereference⟩
      | some backend =>
        ⟨[.SignalWorkflow instanceID event], .returned () (backend.SignalWorkflow instanceID event)⟩

/-- The `for` loop of `WaitForWorkflowInstance`. `poll` counts the state requests
made so far. `ticks` is the number of later turns in which the `select` takes
the ticker case before it takes `ctx.Done()`; the context carries a deadline, so
this number is finite, and it stands for the timeout, the ticker and the
scheduler, which are not modelled further. -/
def pollUntilFinished (b : Backend) (heap : Nat) (inst : Instance) : Nat → Nat → Option GoError
  | 0, poll =>
    match b.GetWorkflowInstanceState inst poll with
    | .error err => some (errorsWrap heap err "could not get workflow state")
    | .ok s =>
      if s = .Finished then none
      else some (errorsNew heap "workflow did not finish in specified timeout")
  | ticks + 1, poll =>
    match b.GetWorkflowInstanceState inst poll with
    | .error err => some (errorsWrap heap err "could not get workflow state")
    | .ok s =>
      if s = .Finished then none
      else pollUntilFinished b heap inst ticks (poll + 1)

/-- `func (c *client) WaitForWorkflowInstance(ctx, instance, timeout) error`:
`c.clock.Ticker` panics on a nil clock, `c.backend.GetWorkflowInstanceState` on
a nil backend. -/
def client.WaitForWorkflowInstance (c : client) (heap : Nat) (ticks : Nat) (inst : Instance) :
    Outcome Unit :=
  match c.clock with
  | none => .panicked .nilDereference
  | some _ =>
    match c.backend with
    | none => .panicked .nilDereference
    | some b => .returned () (pollUntilFinished b heap inst ticks 0)

/-- The dynamic value of a `Client` interface variable. -/
inductive Client where
  /-- The nil interface. -/
  | absent
  /-- A `*client` of this package; `none` is the nil pointer. -/
  | own (ic : Option client)
  /-- A value of any other type implementing the interface, with the way its
  `WaitForWorkflowInstance` ends. -/
  | other (wait : Outcome Unit)

/-- The method call `c.WaitForWorkflowInstance(ctx, instance, timeout)` on an
interface value. -/
def Client.WaitForWorkflowInstance (c : Client) (heap : Nat) (ticks : Nat) (inst : Instance) :
    Outcome Unit :=
  match c with
  | .absent => .panicked .nilDereference
  | .own none => .panicked .nilDereference
  | .own (some ic) => ic.WaitForWorkflowInstance heap ticks inst
  | .other wait => wait

/-- `converter.DefaultConverter.From(data, &r)`: given the payload and the
current content of `r`, the new content of `r` and the error returned. -/
abbrev Decoder (T : Type) := Payload → T → T × Option GoError

/-- The body of the `switch event.Type` of `GetWorkflowResult`: `some` when a case
returns (or panics), `none` when no case applies and the loop goes on. -/
def switchEvent {T : Type} (z : T) (From : Decoder T) (heap : Nat) (event : HistoryEvent) :
    Option (Outcome T) :=
  match event.Typ with
  | .WorkflowExecutionFinished =>
    match event.Attributes with
    | .ExecutionCompleted (some a) =>
      if a.Error ≠ "" then
        some (.returned z (some (errorsNew heap a.Error)))
      else
        match From a.Result z with
        | (_, some err) => some (.returned z (some (errorsWrap heap err "could not convert result")))
        | (r, none) => some (.returned r none)
    | .ExecutionCompleted none => some (.panicked .nilDereference)
    | _ => some (.panicked .typeAssertion)
  | .WorkflowExecutionCanceled => some (.returned z (some ErrWorkflowCanceled))
  | .WorkflowExecutionTerminated => some (.returned z (some ErrWorkflowTerminated))
  | _ => none

/-- The loop `for i := len(h) - 1; i >= 0; i--` of `GetWorkflowResult`; the
argument is `i + 1`. `none` when the loop ends without returning. -/
def scanBackwards {T : Type} (z : T) (From : Decoder T) (heap : Nat) (h : List HistoryEvent) :
    Nat → Option (Outcome T)
  | 0 => none
  | i + 1 =>
    match h[i]? with
    | none => some (.panicked .indexOutOfRange)
    | some event =>
      match switchEvent z From heap event with
      | some o => some o
      | none => scanBackwards z From heap h i

/-- `func GetWorkflowResult[T any](ctx, c, instance, timeout) (T, error)`.
`z` is the zero value of `T`, `ticks` the timing of the wait (see
`pollUntilFinished`). An error of the wait is allocated at `heap`, the error
that wraps it at the next address. -/
def GetWorkflowResult {T : Type} (z : T) (From : Decoder T) (heap : Nat) (ticks : Nat)
    (c : Client) (inst : Instance) : Outcome T :=
  match c.WaitForWorkflowInstance heap ticks inst with
  | .panicked p => .panicked p
  | .returned _ (some err) =>
    .returned z (some (errorsWrap (heap + 1) err "workflow did not finish in time"))
  | .returned _ none =>
    match c with
    | .own (some ic) =>
      match ic.backend with
      | none => .panicked .nilDereference
      | some b =>
        match b.GetWorkflowInstanceHistory inst with
        | .error err => .returned z (some (errorsWrap heap err "could not get workflow history"))
        | .ok h =>
          match scanBackwards z From heap h h.length with
          | some o => o
          | none =>
            .returned z
              (some (errorsNew heap "workflow finished, but could not find result event"))
    | .own none => .panicked .nilDereference
    | _ => .panicked .typeAssertion

/-- The terminal event types `GetWorkflowResult` looks for. -/
def EventType.isTerminal : EventType → Bool
  | .WorkflowExecutionFinished => true
  | .WorkflowExecutionCanceled => true
  | .WorkflowExecutionTerminated => true
  | _ => false

/-! ## The analyzer (`analyzer/analyzer.go`)

The syntax tree of `go/ast` is embedded with one constructor for each node type
the analyzer looks at, and `Other` for every other node type. The maps of
`pass.TypesInfo` are keyed by node, so their entries are stored in the node:
`uses` in an identifier (`TypesInfo.Uses`), `xType` in a range statement
(`TypesInfo.TypeOf(n.X)`), `scope` in a function type (`TypesInfo.Scopes`).
-/

/-- A `token.Pos`. -/
abbrev Pos := Nat

/-- A diagnostic recorded by `pass.Reportf`. -/
structure Diagnostic where
  Pos : Pos
  Message : String
  deriving DecidableEq, Repr

/-- A `*types.TypeName`; `Pkg` is the path of `obj.Pkg()`, `none` when it is nil. -/
structure TypeName where
  Pkg : Option String
  Name : String
  deriving DecidableEq, Repr

/-- A `types.Type`, by dynamic type. -/
inductive GoType where
  | Basic (name : String)
  | Array (len : Nat) (elem : GoType)
  | Slice (elem : GoType)
  | Map (key elem : GoType)
  | Chan (elem : GoType)
  | Pointer (elem : GoType)
  /-- A defined type: `Obj()` (possibly nil) and the underlying type. -/
  | Named (obj : Option TypeName) (underlying : GoType)
  | Other (tag : Nat)
  deriving DecidableEq, Repr

/-- A `types.Object` found in `TypesInfo.Uses`, by dynamic type. -/
inductive Object where
  /-- A `*types.PkgName` and `Imported().Path()`. -/
  | PkgName (importedPath : String)
  | Other (tag : Nat)
  deriving DecidableEq, Repr

/-- An object declared in a scope: its name, `Pos()` and `Type()`. -/
structure ScopeObject where
  Name : String
  Pos : Pos
  Typ : GoType
  deriving DecidableEq, Repr

/-- A `*types.Scope`: the objects of `Names()`/`Lookup`, and the child scopes. -/
inductive Scope where
  | mk (objects : List ScopeObject) (children : List Scope)

/-- An `ast.Node` below the declarations of a file. -/
inductive Node where
  | Ident (pos : Pos) (name : String) (uses : Option Object)
  | SelectorExpr (x : Node) (sel : String)
  | StarExpr (pos : Pos) (x : Node)
  | ParenExpr (pos : Pos) (x : Node)
  | CallExpr (fn : Node) (args : List Node)
  /-- `keyValue` holds the non-nil ones of `Key` and `Value`. -/
  | RangeStmt (pos : Pos) (keyValue : List Node) (x : Node) (xType : Option GoType)
      (body : List Node)
  | SelectStmt (pos : Pos) (body : List Node)
  | GoStmt (pos : Pos) (call : Node)
  | Other (pos : Pos) (kind : String) (children : List Node)

/-- An `*ast.Field`: the declared names and the type expression. -/
structure Field where
  Names : List String
  Typ : Node

/-- An `*ast.FuncType` (without type parameters); `Results` is `none` for a nil
field list. -/
structure FuncType where
  Params : List Field
  Results : Option (List Field)
  scope : Option Scope

/-- An `*ast.FuncDecl`; `pos` is `Pos()`, `Body` the statements of the body. -/
structure FuncDecl where
  pos : Pos
  Recv : List Field
  Name : String
  Typ : FuncType
  Body : List Node

/-- A top-level declaration of a file. -/
inductive Decl where
  | FuncDecl (n : FuncDecl)
  /-- An import, constant, type or variable declaration with its specs. -/
  | GenDecl (specs : List Node)

/-- `n.Pos()`. -/
def Node.Pos : Node → Pos
  | .Ident pos _ _ => pos
  | .SelectorExpr x _ => x.Pos
  | .StarExpr pos _ => pos
  | .ParenExpr pos _ => pos
  | .CallExpr fn _ => fn.Pos
  | .RangeStmt pos _ _ _ _ => pos
  | .SelectStmt pos _ => pos
  | .GoStmt pos _ => pos
  | .Other pos _ _ => pos

mutual
/-- `types.ExprString` of `go/types` on the expressions modelled here; a node
type without a constructor of its own gets the rendering of the fallback case,
which like every rendering of a composite expression is not an identifier. -/
def ExprString : Node → String
  | .Ident _ name _ => name
  | .SelectorExpr x sel => ExprString x ++ "." ++ sel
  | .StarExpr _ x => "*" ++ ExprString x
  | .ParenExpr _ x => "(" ++ ExprString x ++ ")"
  | .CallExpr fn args => ExprString fn ++ "(" ++ ExprStrings args ++ ")"
  | .RangeStmt _ _ _ _ _ => "(ast: RangeStmt)"
  | .SelectStmt _ _ => "(ast: SelectStmt)"
  | .GoStmt _ _ => "(ast: GoStmt)"
  | .Other _ kind _ => "(ast: " ++ kind ++ ")"
/-- The argument list of a call, separated by commas. -/
def ExprStrings : List Node → String
  | [] => ""
  | [e] => ExprString e
  | e :: es => ExprString e ++ ", " ++ ExprStrings es
end

def msgNoReturn (name : String) : String :=
  "workflow `" ++ name ++ "` doesn\x27t return anything. needs to return at least `error`"

def msgMoreThanTwo (name : String) : String :=
  "workflow `" ++ name ++ "` returns more than two values"

def msgLastNotError (name : String) : String :=
  "workflow `" ++ name ++ "` doesn\x27t return `error` as last return value"

def msgMap : String :=
  "iterating over a `map` is not deterministic and not allowed in workflows"

def msgChan : String :=
  "using native channels is not allowed in workflows, use `workflow.Channel` instead"

def msgSelect : String :=
  "`select` statements are not allowed in workflows, use `workflow.Select` instead"

def msgGo : String := "use `workflow.Go` instead of `go` in workflows"

def msgTimeNow : String := "`time.Now` is not allowed in workflows, use `workflow.Now` instead"

def msgTimeSleep : String :=
  "`time.Sleep` is not allowed in workflows, use `workflow.Sleep` instead"

def msgWaitGroup : String :=
  "using `sync.WaitGroup` is not allowed in workflows, use `workflow.WaitGroup` instead"

/-- `func checkNamed(pass, ref, named)`; `obj` is `named.Obj()`. The
`fmt.Println` of the source writes to standard output and reports nothing. -/
def checkNamed (ref : ScopeObject) (obj : Option TypeName) : List Diagnostic :=
  match obj with
  | none => []
  | some o =>
    match o.Pkg with
    | none => []
    | some path =>
      if path = "sync" then
        if o.Name = "WaitGroup" then [⟨ref.Pos, msgWaitGroup⟩] else []
      else []

/-- The body of the loop over `scope.Names()` in `checkVarsInScope`. -/
def checkVar (obj : ScopeObject) : List Diagnostic :=
  match obj.Typ with
  | .Chan _ => [⟨obj.Pos, msgChan⟩]
  | .Named o _ => checkNamed obj o
  | .Pointer (.Named o _) => checkNamed obj o
  | _ => []

mutual
/-- `func checkVarsInScope(pass, scope)`. -/
def checkVarsInScope : Scope → List Diagnostic
  | .mk objects children => objects.flatMap checkVar ++ checkVarsInScopes children
/-- The loop over `scope.Child(i)` in `checkVarsInScope`. -/
def checkVarsInScopes : List Scope → List Diagnostic
  | [] => []
  | s :: ss => checkVarsInScope s ++ checkVarsInScopes ss
end

/-- `func isWorkflow(funcDecl *ast.FuncDecl) bool`. -/
def isWorkflow (funcDecl : FuncDecl) : Bool :=
  match funcDecl.Typ.Params with
  | [] => false
  | first :: _ =>
    match first.Typ with
    | .SelectorExpr (.Ident _ xname _) selname =>
      if xname ++ "." ++ selname ≠ "workflow.Context" then false else true
    | _ => false

/-- The `*ast.FuncDecl` case of `run` for a declaration `isWorkflow` accepts: the
diagnostics reported before the children are visited. -/
def checkFuncDecl (n : FuncDecl) : List Diagnostic :=
  let scopeReports : List Diagnostic :=
    match n.Typ.scope with
    | some funcScope => checkVarsInScope funcScope
    | none => []
  match n.Typ.Results with
  | none => [⟨n.pos, msgNoReturn n.Name⟩] ++ scopeReports
  | some list =>
    if list.length = 0 then
      [⟨n.pos, msgNoReturn n.Name⟩] ++ scopeReports
    else if list.length > 2 then
      [⟨n.pos, msgMoreThanTwo n.Name⟩]
    else
      match list[list.length - 1]? with
      | none => scopeReports
      | some lastResult =>
        (if ExprString lastResult.Typ ≠ "error" then [⟨n.pos, msgLastNotError n.Name⟩] else [])
          ++ scopeReports

/-- The cases of the `switch n := node.(type)` of `run` below a declaration: the
diagnostics reported when the node is entered. -/
def checkNode : Node → List Diagnostic
  | .RangeStmt pos _ _ xType _ =>
    match xType with
    | none => []
    | some (.Map _ _) => [⟨pos, msgMap⟩]
    | some (.Chan _) => [⟨pos, msgChan⟩]
    | some _ => []
  | .SelectStmt pos _ => [⟨pos, msgSelect⟩]
  | .GoStmt pos _ => [⟨pos, msgGo⟩]
  | .CallExpr fn args =>
    match fn with
    | .SelectorExpr (.Ident _ _ (some (.PkgName path))) id =>
      if path = "time" then
        if id = "Now" then [⟨(Node.CallExpr fn args).Pos, msgTimeNow⟩]
        else if id = "Sleep" then [⟨(Node.CallExpr fn args).Pos, msgTimeSleep⟩]
        else []
      else []
    | _ => []
  | _ => []

mutual
/-- The traversal of `inspector.Nodes` below a declaration: the callback of `run`
returns true for each of these nodes, so all children are visited, in order. -/
def inspectNode : Node → List Diagnostic
  | .Ident pos name uses => checkNode (.Ident pos name uses)
  | .SelectorExpr x sel => checkNode (.SelectorExpr x sel) ++ inspectNode x
  | .StarExpr pos x => checkNode (.StarExpr pos x) ++ inspectNode x
  | .ParenExpr pos x => checkNode (.ParenExpr pos x) ++ inspectNode x
  | .CallExpr fn args => checkNode (.CallExpr fn args) ++ (inspectNode fn ++ inspectNodes args)
  | .RangeStmt pos kv x t body =>
    checkNode (.RangeStmt pos kv x t body)
      ++ (inspectNodes kv ++ (inspectNode x ++ inspectNodes body))
  | .SelectStmt pos body => checkNode (.SelectStmt pos body) ++ inspectNodes body
  | .GoStmt pos call => checkNode (.GoStmt pos call) ++ inspectNode call
  | .Other pos kind children => checkNode (.Other pos kind children) ++ inspectNodes children
/-- The traversal of a list of sibling nodes. -/
def inspectNodes : List Node → List Diagnostic
  | [] => []
  | n :: ns => inspectNode n ++ inspectNodes ns
end

/-- The type expressions of a field list. -/
def fieldTypes (fields : List Field) : List Node :=
  fields.map (fun f => f.Typ)

/-- The children of a function declaration that the traversal visits, in order:
the type expressions of the receiver, of the parameters and of the results,
then the statements of the body. (The identifiers of the declared names are
leaves for which `run` has no case.) -/
def FuncDecl.children (n : FuncDecl) : List Node :=
  fieldTypes n.Recv ++ (fieldTypes n.Typ.Params ++
    (fieldTypes (n.Typ.Results.getD []) ++ n.Body))

/-- The callback of `run` on a top-level declaration and the nodes below it. -/
def inspectDecl : Decl → List Diagnostic
  | .FuncDecl n =>
    if !isWorkflow n then []
    else checkFuncDecl n ++ inspectNodes n.children
  | .GenDecl specs => inspectNodes specs

/-- `func run(pass *analysis.Pass)`: the diagnostics reported for the declarations
of the files of the pass, in traversal order. -/
def run (decls : List Decl) : List Diagnostic :=
  decls.flatMap inspectDecl

mutual
/-- A node and all nodes below it, in traversal order. -/
def Node.subnodes : Node → List Node
  | .Ident pos name uses => [.Ident pos name uses]
  | .SelectorExpr x sel => .SelectorExpr x sel :: x.subnodes
  | .StarExpr pos x => .StarExpr pos x :: x.subnodes
  | .ParenExpr pos x => .ParenExpr pos x :: x.subnodes
  | .CallExpr fn args => .CallExpr fn args :: (fn.subnodes ++ subnodesOf args)
  | .RangeStmt pos kv x t body =>
    .RangeStmt pos kv x t body :: (subnodesOf kv ++ (x.subnodes ++ subnodesOf body))
  | .SelectStmt pos body => .SelectStmt pos body :: subnodesOf body
  | .GoStmt pos call => .GoStmt pos call :: call.subnodes
  | .Other pos kind children => .Other pos kind children :: subnodesOf children
/-- The nodes of a list of trees, in traversal order. -/
def subnodesOf : List Node → List Node
  | [] => []
  | n :: ns => n.subnodes ++ subnodesOf ns
end

/-- The nodes inside a function declaration. -/
def FuncDecl.nodes (n : FuncDecl) : List Node :=
  subnodesOf n.children


/-- The nodes below a declaration that the traversal of `run` enters. -/
def Decl.visited : Decl → List Node
  | .FuncDecl n => if isWorkflow n then n.nodes else []
  | .GenDecl specs => subnodesOf specs

/-- The callee `p.sel` where the identifier `p`, at `pos` and spelled `localName`,
denotes an import of the package with path "time". -/
def timeSelector (pos : Pos) (localName sel : String) : Node :=
  .SelectorExpr (.Ident pos localName (some (.PkgName "time"))) sel

/-- The first character of a string. -/
def firstChar (s : String) : Option Char := s.data.head?

/-! ## Predicates used to state the properties -/

/-- The event `e` at index `i` of `h` is the terminal event closest to the end of
the history: it is terminal and no event after it is. -/
def IsLastTerminal (h : List HistoryEvent) (i : Nat) (e : HistoryEvent) : Prop :=
  h[i]? = some e ∧ e.Typ.isTerminal = true ∧
    ∀ (j : Nat) (e2 : HistoryEvent), i < j → h[j]? = some e2 → e2.Typ.isTerminal = false

/-- The call returned normally (a value and an error that may be nil). -/
def Outcome.Returns {T : Type} (o : Outcome T) : Prop :=
  ∃ (v : T) (err : Option GoError), o = .returned v err

/-! ## Sample inputs -/

/-- A backend that holds the history `h`, reports the instance as finished and
accepts every call. -/
def backendWith (h : List HistoryEvent) : Backend :=
  { CreateWorkflowInstance := fun _ => none
    CancelWorkflowInstance := fun _ _ => none
    SignalWorkflow := fun _ _ => none
    GetWorkflowInstanceState := fun _ _ => .ok .Finished
    GetWorkflowInstanceHistory := fun _ => .ok h }

/-- A client over `backendWith h` whose injected clock shows `now`. -/
def clientWith (h : List HistoryEvent) (now : Time) : client :=
  { backend := some (backendWith h), clock := some { Now := now } }

def sampleInstance : Instance := NewWorkflowInstance "order-17" "run-1"

/-- A decoder into `Nat` that rejects the empty payload and decodes every other
payload to 47. -/
def sampleDecoder : Decoder Nat := fun data r =>
  if data = "" then (r, some (.foreign 9 "unexpected end of JSON input")) else (47, none)

def startedEvent : HistoryEvent :=
  NewHistoryEvent 10 .WorkflowExecutionStarted
    (.ExecutionStarted (some { Name := "Workflow1", Inputs := ["35"] }))

def signalEvent : HistoryEvent :=
  NewHistoryEvent 40 .SignalReceived (.SignalReceived (some { Name := "ping", Arg := "1" }))

def finishedEvent (result : Payload) (error : String) : HistoryEvent :=
  NewHistoryEvent 30 .WorkflowExecutionFinished
    (.ExecutionCompleted (some { Result := result, Error := error }))

def canceledEvent : HistoryEvent := NewWorkflowCancellationEvent 20

def terminatedEvent : HistoryEvent :=
  NewHistoryEvent 25 .WorkflowExecutionTerminated .absent

/-- A finished event that carries no attributes. -/
def finishedEventNoAttributes : HistoryEvent :=
  NewHistoryEvent 30 .WorkflowExecutionFinished .absent

/-- Started, canceled, finished with result, then a late signal. -/
def historyFinished : List HistoryEvent :=
  [startedEvent, canceledEvent, finishedEvent "47" "", signalEvent]

/-- Started, finished with a workflow error. -/
def historyFailed : List HistoryEvent :=
  [startedEvent, finishedEvent "" "boom"]

/-- Started, finished, then canceled. -/
def historyCanceled : List HistoryEvent :=
  [startedEvent, finishedEvent "47" "", canceledEvent]

/-- Started, then a finished event without attributes. -/
def historyNoAttributes : List HistoryEvent :=
  [startedEvent, finishedEventNoAttributes]

/-- `(*ast.FieldList).NumFields` of `go/ast`: the number of values a field list
declares, a field without names counting for one. -/
def NumFields (fields : List Field) : Nat :=
  (fields.map (fun f => if f.Names.length = 0 then 1 else f.Names.length)).sum

/-- The import path of the workflow package. -/
def workflowPath : String := "github.com/cschleiden/go-workflows/workflow"

/-- The parameter `ctx workflow.Context`. -/
def ctxField : Field :=
  { Names := ["ctx"]
    Typ := .SelectorExpr (.Ident 12 "workflow" (some (.PkgName workflowPath))) "Context" }

/-- The variable `ctx` in the scope of the function. -/
def ctxVar : ScopeObject :=
  { Name := "ctx", Pos := 8, Typ := .Named (some ⟨some workflowPath, "Context"⟩) (.Other 0) }

/-- An identifier that names a type. -/
def typeIdent (pos : Pos) (name : String) : Node := .Ident pos name (some (.Other 0))

/-- The predeclared type `error`. -/
def errorGoType : GoType := .Named (some ⟨none, "error"⟩) (.Other 0)

/-- The statement `return nil`. -/
def returnNil : Node := .Other 90 "ReturnStmt" [.Ident 97 "nil" (some (.Other 0))]

/-- `func W(ctx workflow.Context) (a, b int, err error) { return }`. -/
def workflowGroupedResults : FuncDecl :=
  { pos := 1, Recv := [], Name := "W"
    Typ :=
      { Params := [ctxField]
        Results := some [⟨["a", "b"], typeIdent 40 "int"⟩, ⟨["err"], typeIdent 50 "error"⟩]
        scope := some (.mk [ctxVar, ⟨"a", 35, .Basic "int"⟩, ⟨"b", 38, .Basic "int"⟩,
          ⟨"err", 46, errorGoType⟩] []) }
    Body := [.Other 60 "ReturnStmt" []] }

/-- The result list `(int, string, error)`. -/
def threeResults : List Field :=
  [⟨[], typeIdent 40 "int"⟩, ⟨[], typeIdent 45 "string"⟩, ⟨[], typeIdent 53 "error"⟩]

/-- The result list `(int, error)`. -/
def twoResults : List Field :=
  [⟨[], typeIdent 40 "int"⟩, ⟨[], typeIdent 45 "error"⟩]

/-- The operands of `return 0, "", nil`. -/
def threeValues : List Node :=
  [.Other 97 "BasicLit" [], .Other 100 "BasicLit" [], .Ident 104 "nil" (some (.Other 0))]

/-- The operands of `return 0, nil`. -/
def twoValues : List Node :=
  [.Other 97 "BasicLit" [], .Ident 100 "nil" (some (.Other 0))]

/-- `func W(ctx workflow.Context) RESULTS { var wg sync.WaitGroup; wg.Wait(); return VALUES }`
for a given result list and the matching operands of the return statement. -/
def workflowWithWaitGroup (results : Option (List Field)) (values : List Node) : FuncDecl :=
  { pos := 1, Recv := [], Name := "W"
    Typ :=
      { Params := [ctxField]
        Results := results
        scope := some (.mk [ctxVar,
          ⟨"wg", 64, .Named (some ⟨some "sync", "WaitGroup"⟩) (.Other 1)⟩] []) }
    Body :=
      [.Other 60 "DeclStmt" [.Other 60 "GenDecl" [.Other 64 "ValueSpec" [.Ident 64 "wg" none,
          .SelectorExpr (.Ident 67 "sync" (some (.PkgName "sync"))) "WaitGroup"]]],
        .Other 80 "ExprStmt" [.CallExpr (.SelectorExpr (.Ident 80 "wg" (some (.Other 5))) "Wait") []],
        .Other 90 "ReturnStmt" values] }

/-- `func W(ctx workflow.Context) (int, string, error) { return 0, "", nil }`. -/
def workflowThreeResults : FuncDecl :=
  { pos := 1, Recv := [], Name := "W"
    Typ := { Params := [ctxField], Results := some threeResults, scope := some (.mk [ctxVar] []) }
    Body := [.Other 90 "ReturnStmt" threeValues] }

/-- `func W(ctx workflow.Context, r R) error { for range r { }; return nil }` where
the parameter type is written `typeExpr` and `t` is the type of `r`. -/
def workflowRanging (typeExpr : Node) (t : GoType) : FuncDecl :=
  { pos := 1, Recv := [], Name := "W"
    Typ :=
      { Params := [ctxField, ⟨["r"], typeExpr⟩]
        Results := some [⟨[], typeIdent 50 "error"⟩]
        scope := some (.mk [ctxVar, ⟨"r", 30, t⟩] []) }
    Body := [.RangeStmt 60 [] (.Ident 70 "r" (some (.Other 2))) (some t) [], returnNil] }

/-- The type expression `map[string]int`. -/
def mapTypeExpr : Node := .Other 32 "MapType" [typeIdent 36 "string", typeIdent 43 "int"]

/-- The type `map[string]int`. -/
def mapType : GoType := .Map (.Basic "string") (.Basic "int")

/-- The defined type of `type Registry map[string]int`, declared in the package
of the workflow. -/
def registryType : GoType :=
  .Named (some ⟨some "example.com/orders", "Registry"⟩) mapType

/-- `func W(ctx workflow.Context) error { f(); return nil }` for a callee `fn`. -/
def workflowCalling (fn : Node) : FuncDecl :=
  { pos := 1, Recv := [], Name := "W"
    Typ :=
      { Params := [ctxField]
        Results := some [⟨[], typeIdent 40 "error"⟩]
        scope := some (.mk [ctxVar] []) }
    Body := [.Other 60 "ExprStmt" [.CallExpr fn []], returnNil] }

/-- The callee `Now` of a file with `import . "time"`. -/
def dotImportedNow : Node := .Ident 60 "Now" (some (.Other 3))

/-- The callee `t.Now` of a file with `import t "time"`. -/
def renamedImportNow : Node := timeSelector 60 "t" "Now"

/-- The package-level declaration `var started = time.Now()`. -/
def packageLevelNow : Decl :=
  .GenDecl [.Other 5 "ValueSpec" [.Ident 5 "started" none,
    .CallExpr (.SelectorExpr (.Ident 15 "time" (some (.PkgName "time"))) "Now") []]]

/-- The package-level declaration `var spawn = func() { go work() }`. -/
def packageLevelFuncLit : Decl :=
  .GenDecl [.Other 5 "ValueSpec" [.Ident 5 "spawn" none,
    .Other 13 "FuncLit" [.Other 13 "FuncType" [],
      .Other 20 "BlockStmt" [.GoStmt 22 (.CallExpr (.Ident 25 "work" (some (.Other 4))) [])]]]]

/-! ## Lemmas on the history scan -/

theorem switchEvent_eq_none_iff {T : Type} (z : T) (From : Decoder T) (heap : Nat)
    (e : HistoryEvent) :
    switchEvent z From heap e = none ↔ e.Typ.isTerminal = false := by
  obtain ⟨sq, ts, ty, attrs⟩ := e
  cases ty <;> simp only [switchEvent, EventType.isTerminal] <;> try simp
  split
  · split
    · split <;> simp
    · simp
  · simp
  · simp

theorem scanBackwards_of_last {T : Type} (z : T) (From : Decoder T) (heap : Nat)
    (h : List HistoryEvent) (i : Nat) (e : HistoryEvent) (he : h[i]? = some e)
    (ht : e.Typ.isTerminal = true) :
    ∀ n : Nat, i < n → n ≤ h.length →
      (∀ (j : Nat) (e2 : HistoryEvent), i < j → j < n → h[j]? = some e2 →
        e2.Typ.isTerminal = false) →
      scanBackwards z From heap h n = switchEvent z From heap e := by
  intro n
  induction n with
  | zero => intro hi; omega
  | succ n ih =>
    intro hi hn hl
    unfold scanBackwards
    by_cases hin : i = n
    · subst hin
      rw [he]
      cases hs : switchEvent z From heap e with
      | none =>
        rw [switchEvent_eq_none_iff] at hs
        rw [ht] at hs
        cases hs
      | some o => simp only [hs]
    · have hlt : n < h.length := by omega
      have hget : h[n]? = some h[n] := List.getElem?_eq_getElem hlt
      rw [hget]
      have hnt : (h[n]).Typ.isTerminal = false := hl n h[n] (by omega) (by omega) hget
      have hs : switchEvent z From heap h[n] = none :=
        (switchEvent_eq_none_iff z From heap h[n]).mpr hnt
      simp only [hs]
      exact ih (by omega) (by omega) (fun j e2 h1 h2 h3 => hl j e2 h1 (by omega) h3)

theorem scanBackwards_of_none {T : Type} (z : T) (From : Decoder T) (heap : Nat)
    (h : List HistoryEvent) (hall : ∀ e ∈ h, e.Typ.isTerminal = false) :
    ∀ n : Nat, n ≤ h.length → scanBackwards z From heap h n = none := by
  intro n
  induction n with
  | zero => intro _; rfl
  | succ n ih =>
    intro hn
    unfold scanBackwards
    have hlt : n < h.length := by omega
    have hget : h[n]? = some h[n] := List.getElem?_eq_getElem hlt
    rw [hget]
    have hnt : (h[n]).Typ.isTerminal = false := hall h[n] (List.getElem_mem hlt)
    have hs : switchEvent z From heap h[n] = none :=
      (switchEvent_eq_none_iff z From heap h[n]).mpr hnt
    simp only [hs]
    exact ih (by omega)

/-- The result of `GetWorkflowResult` on a `*client` once the wait returned nil and
the history was fetched: what the backward scan finds, or the final error. -/
theorem getWorkflowResult_of_fetch {T : Type} (z : T) (From : Decoder T) (heap ticks : Nat)
    (ic : client) (b : Backend) (inst : Instance) (h : List HistoryEvent)
    (hwait : ic.WaitForWorkflowInstance heap ticks inst = .returned () none)
    (hback : ic.backend = some b)
    (hfetch : b.GetWorkflowInstanceHistory inst = .ok h) :
    GetWorkflowResult z From heap ticks (.own (some ic)) inst =
      match scanBackwards z From heap h h.length with
      | some o => o
      | none =>
        .returned z (some (errorsNew heap "workflow finished, but could not find result event")) := by
  simp only [GetWorkflowResult, Client.WaitForWorkflowInstance, hwait, hback, hfetch]

theorem getWorkflowResult_of_last {T : Type} (z : T) (From : Decoder T) (heap ticks : Nat)
    (ic : client) (b : Backend) (inst : Instance) (h : List HistoryEvent)
    (hwait : ic.WaitForWorkflowInstance heap ticks inst = .returned () none)
    (hback : ic.backend = some b)
    (hfetch : b.GetWorkflowInstanceHistory inst = .ok h)
    (i : Nat) (e : HistoryEvent) (hlast : IsLastTerminal h i e) :
    some (GetWorkflowResult z From heap ticks (.own (some ic)) inst) =
      switchEvent z From heap e := by
  obtain ⟨he, ht, hl⟩ := hlast
  have hi : i < h.length := by
    rcases Nat.lt_or_ge i h.length with hlt | hge
    · exact hlt
    · rw [List.getElem?_eq_none hge] at he
      cases he
  have hscan := scanBackwards_of_last z From heap h i e he ht h.length hi (le_refl _)
    (fun j e2 h1 _ h3 => hl j e2 h1 h3)
  rw [getWorkflowResult_of_fetch z From heap ticks ic b inst h hwait hback hfetch, hscan]
  cases hs : switchEvent z From heap e with
  | none =>
    rw [switchEvent_eq_none_iff] at hs
    rw [ht] at hs
    cases hs
  | some o => rfl

theorem getWorkflowResult_of_none {T : Type} (z : T) (From : Decoder T) (heap ticks : Nat)
    (ic : client) (b : Backend) (inst : Instance) (h : List HistoryEvent)
    (hwait : ic.WaitForWorkflowInstance heap ticks inst = .returned () none)
    (hback : ic.backend = some b)
    (hfetch : b.GetWorkflowInstanceHistory inst = .ok h)
    (hall : ∀ e ∈ h, e.Typ.isTerminal = false) :
    GetWorkflowResult z From heap ticks (.own (some ic)) inst =
      .returned z (some (errorsNew heap "workflow finished, but could not find result event")) := by
  have hscan := scanBackwards_of_none z From heap h hall h.length (le_refl _)
  rw [getWorkflowResult_of_fetch z From heap ticks ic b inst h hwait hback hfetch, hscan]

/-! ## Properties of `GetWorkflowResult` -/

/-- C1: once the wait and the history fetch have succeeded, the result of
`GetWorkflowResult` is the outcome of the switch on the terminal event closest
to the end of the history, whatever non-terminal events follow it and whatever
events precede it; on a history without a terminal event (the empty one
included) it returns the zero value and a non-nil error. -/
theorem C1_result_of_last_terminal_event {T : Type} (z : T) (From : Decoder T)
    (heap ticks : Nat) (ic : client) (b : Backend) (inst : Instance) (h : List HistoryEvent)
    (hwait : ic.WaitForWorkflowInstance heap ticks inst = .returned () none)
    (hback : ic.backend = some b)
    (hfetch : b.GetWorkflowInstanceHistory inst = .ok h) :
    (∀ (i : Nat) (e : HistoryEvent), IsLastTerminal h i e →
      some (GetWorkflowResult z From heap ticks (.own (some ic)) inst) =
        switchEvent z From heap e) ∧
    ((∀ e ∈ h, e.Typ.isTerminal = false) →
      GetWorkflowResult z From heap ticks (.own (some ic)) inst =
        .returned z
          (some (errorsNew heap "workflow finished, but could not find result event"))) :=
  ⟨fun i e hlast =>
      getWorkflowResult_of_last z From heap ticks ic b inst h hwait hback hfetch i e hlast,
   fun hall => getWorkflowResult_of_none z From heap ticks ic b inst h hwait hback hfetch hall⟩

theorem isLastTerminal_historyFinished :
    IsLastTerminal historyFinished 2 (finishedEvent "47" "") := by
  refine ⟨rfl, rfl, ?_⟩
  intro j e2 hj hget
  rcases j with _ | _ | _ | _ | j
  · omega
  · omega
  · omega
  · simp [historyFinished] at hget
    subst hget
    rfl
  · simp [historyFinished] at hget

/-- C1, witness: the history started, canceled, finished, signal, and the empty
history. -/
theorem C1_result_of_last_terminal_event_witness :
    some (GetWorkflowResult 0 sampleDecoder initHeap 3
        (.own (some (clientWith historyFinished 0))) sampleInstance) =
      switchEvent 0 sampleDecoder initHeap (finishedEvent "47" "") ∧
    GetWorkflowResult 0 sampleDecoder initHeap 3 (.own (some (clientWith [] 0)))
        sampleInstance =
      .returned 0
        (some (errorsNew initHeap "workflow finished, but could not find result event")) :=
  ⟨(C1_result_of_last_terminal_event 0 sampleDecoder initHeap 3 (clientWith historyFinished 0)
      (backendWith historyFinished) sampleInstance historyFinished rfl rfl rfl).1 2
      (finishedEvent "47" "") isLastTerminal_historyFinished,
   (C1_result_of_last_terminal_event 0 sampleDecoder initHeap 3 (clientWith [] 0)
      (backendWith []) sampleInstance [] rfl rfl rfl).2 (by simp)⟩

theorem switchEvent_finished_error_ne_sentinel {T : Type} (z : T) (From : Decoder T)
    (heap : Nat) (hheap : initHeap ≤ heap) (e : HistoryEvent)
    (hty : e.Typ = .WorkflowExecutionFinished) (v : T) (err : GoError)
    (hs : switchEvent z From heap e = some (.returned v (some err))) :
    err ≠ ErrWorkflowCanceled ∧ err ≠ ErrWorkflowTerminated := by
  obtain ⟨sq, ts, ty, attrs⟩ := e
  simp only at hty
  subst hty
  have h2 : 2 ≤ heap := hheap
  simp only [switchEvent] at hs
  split at hs
  · split at hs
    · simp only [Option.some.injEq, Outcome.returned.injEq] at hs
      obtain ⟨_, rfl⟩ := hs
      simp only [errorsNew, ErrWorkflowCanceled, ErrWorkflowTerminated, ne_eq,
        GoError.fundamental.injEq, not_and]
      constructor <;> intro hh <;> omega
    · split at hs
      · simp only [Option.some.injEq, Outcome.returned.injEq] at hs
        obtain ⟨_, rfl⟩ := hs
        simp [errorsWrap, ErrWorkflowCanceled, ErrWorkflowTerminated, errorsNew]
      · simp at hs
  · simp at hs
  · simp at hs

/-- C2: when the terminal event closest to the end of the history is
WorkflowExecutionCanceled, `GetWorkflowResult` returns the zero value and the
value `ErrWorkflowCanceled` itself; when it is WorkflowExecutionTerminated, the
zero value and `ErrWorkflowTerminated` itself. The two sentinels are different
values, and no error returned for a WorkflowExecutionFinished event (built by
`errors.New` or `errors.Wrap` after package initialisation) is one of them. -/
theorem C2_cancel_and_terminate_sentinels {T : Type} (z : T) (From : Decoder T)
    (heap ticks : Nat) (ic : client) (b : Backend) (inst : Instance) (h : List HistoryEvent)
    (i : Nat) (e : HistoryEvent)
    (hheap : initHeap ≤ heap)
    (hwait : ic.WaitForWorkflowInstance heap ticks inst = .returned () none)
    (hback : ic.backend = some b)
    (hfetch : b.GetWorkflowInstanceHistory inst = .ok h)
    (hlast : IsLastTerminal h i e) :
    (e.Typ = .WorkflowExecutionCanceled →
      GetWorkflowResult z From heap ticks (.own (some ic)) inst =
        .returned z (some ErrWorkflowCanceled)) ∧
    (e.Typ = .WorkflowExecutionTerminated →
      GetWorkflowResult z From heap ticks (.own (some ic)) inst =
        .returned z (some ErrWorkflowTerminated)) ∧
    ErrWorkflowCanceled ≠ ErrWorkflowTerminated ∧
    (e.Typ = .WorkflowExecutionFinished → ∀ (v : T) (err : GoError),
      GetWorkflowResult z From heap ticks (.own (some ic)) inst = .returned v (some err) →
      err ≠ ErrWorkflowCanceled ∧ err ≠ ErrWorkflowTerminated) := by
  have hres := getWorkflowResult_of_last z From heap ticks ic b inst h hwait hback hfetch i e hlast
  refine ⟨?_, ?_, by decide, ?_⟩
  · intro hty
    obtain ⟨sq, ts, ty, attrs⟩ := e
    simp only at hty
    subst hty
    simpa [switchEvent] using hres
  · intro hty
    obtain ⟨sq, ts, ty, attrs⟩ := e
    simp only at hty
    subst hty
    simpa [switchEvent] using hres
  · intro hty v err hret
    rw [hret] at hres
    exact switchEvent_finished_error_ne_sentinel z From heap hheap e hty v err hres.symm

theorem isLastTerminal_historyCanceled :
    IsLastTerminal historyCanceled 2 canceledEvent := by
  refine ⟨rfl, rfl, ?_⟩
  intro j e2 hj hget
  rcases j with _ | _ | _ | j
  · omega
  · omega
  · omega
  · simp [historyCanceled] at hget

/-- C2, witness: the history started, finished, canceled. -/
theorem C2_cancel_and_terminate_sentinels_witness :
    GetWorkflowResult 0 sampleDecoder initHeap 3
        (.own (some (clientWith historyCanceled 0))) sampleInstance =
      .returned 0 (some ErrWorkflowCanceled) :=
  (C2_cancel_and_terminate_sentinels 0 sampleDecoder initHeap 3 (clientWith historyCanceled 0)
    (backendWith historyCanceled) sampleInstance historyCanceled 2 canceledEvent (le_refl _)
    rfl rfl rfl isLastTerminal_historyCanceled).1 rfl

/-- C3: when the terminal event closest to the end of the history is
WorkflowExecutionFinished with attributes (Result, Error): if Error is not
empty the call returns the zero value and a new error whose message is Error,
whatever the decoder would do with Result; if Error is empty it returns the
decoded value and a nil error when decoding succeeds, and the zero value and
the decoding error wrapped with "could not convert result" when it fails. A
nil error is returned only if Error is empty. -/
theorem C3_finished_event_outcome {T : Type} (z : T) (From : Decoder T) (heap ticks : Nat)
    (ic : client) (b : Backend) (inst : Instance) (h : List HistoryEvent) (i : Nat)
    (e : HistoryEvent) (a : ExecutionCompletedAttributes)
    (hwait : ic.WaitForWorkflowInstance heap ticks inst = .returned () none)
    (hback : ic.backend = some b)
    (hfetch : b.GetWorkflowInstanceHistory inst = .ok h)
    (hlast : IsLastTerminal h i e)
    (hty : e.Typ = .WorkflowExecutionFinished)
    (hattr : e.Attributes = .ExecutionCompleted (some a)) :
    (a.Error ≠ "" →
      GetWorkflowResult z From heap ticks (.own (some ic)) inst =
        .returned z (some (errorsNew heap a.Error)) ∧
      (errorsNew heap a.Error).Error = a.Error) ∧
    (a.Error = "" → ∀ r : T, From a.Result z = (r, none) →
      GetWorkflowResult z From heap ticks (.own (some ic)) inst = .returned r none) ∧
    (a.Error = "" → ∀ (r : T) (err : GoError), From a.Result z = (r, some err) →
      GetWorkflowResult z From heap ticks (.own (some ic)) inst =
        .returned z (some (errorsWrap heap err "could not convert result"))) ∧
    (∀ v : T, GetWorkflowResult z From heap ticks (.own (some ic)) inst = .returned v none →
      a.Error = "") := by
  have hres := getWorkflowResult_of_last z From heap ticks ic b inst h hwait hback hfetch i e hlast
  obtain ⟨sq, ts, ty, attrs⟩ := e
  simp only at hty hattr
  subst hty
  subst hattr
  simp only [switchEvent] at hres
  refine ⟨?_, ?_, ?_, ?_⟩
  · intro herr
    constructor
    · simpa [herr] using hres
    · rfl
  · intro herr r hdec
    simpa [herr, hdec] using hres
  · intro herr r err hdec
    simpa [herr, hdec] using hres
  · intro v hret
    by_contra herr
    rw [hret] at hres
    simp [herr] at hres

theorem isLastTerminal_historyFailed :
    IsLastTerminal historyFailed 1 (finishedEvent "" "boom") := by
  refine ⟨rfl, rfl, ?_⟩
  intro j e2 hj hget
  rcases j with _ | _ | j
  · omega
  · omega
  · simp [historyFailed] at hget

/-- C3, witness: the history started, finished with the error "boom". -/
theorem C3_finished_event_outcome_witness :
    GetWorkflowResult 0 sampleDecoder initHeap 3
        (.own (some (clientWith historyFailed 0))) sampleInstance =
      .returned 0 (some (errorsNew initHeap "boom")) ∧
    (errorsNew initHeap "boom").Error = "boom" :=
  (C3_finished_event_outcome 0 sampleDecoder initHeap 3 (clientWith historyFailed 0)
    (backendWith historyFailed) sampleInstance historyFailed 1 (finishedEvent "" "boom")
    { Result := "", Error := "boom" } rfl rfl rfl isLastTerminal_historyFailed rfl rfl).1
    (by decide)

/-- A history has no terminal event, or it has a terminal event closest to its end. -/
theorem last_terminal_cases (h : List HistoryEvent) :
    ∀ n : Nat, n ≤ h.length →
      (∀ (j : Nat) (e2 : HistoryEvent), j < n → h[j]? = some e2 → e2.Typ.isTerminal = false) ∨
      ∃ (i : Nat) (e : HistoryEvent), i < n ∧ h[i]? = some e ∧ e.Typ.isTerminal = true ∧
        ∀ (j : Nat) (e2 : HistoryEvent), i < j → j < n → h[j]? = some e2 →
          e2.Typ.isTerminal = false := by
  intro n
  induction n with
  | zero => intro _; left; intro j e2 hj; omega
  | succ n ih =>
    intro hn
    have hlt : n < h.length := by omega
    have hget : h[n]? = some h[n] := List.getElem?_eq_getElem hlt
    by_cases hterm : (h[n]).Typ.isTerminal = true
    · right
      exact ⟨n, h[n], by omega, hget, hterm, fun j e2 h1 h2 _ => by omega⟩
    · have hf : (h[n]).Typ.isTerminal = false := by simpa using hterm
      rcases ih (by omega) with hall | ⟨i, e, hi, he, ht, hl⟩
      · left
        intro j e2 hj hj2
        by_cases hjn : j = n
        · subst hjn
          rw [hget] at hj2
          cases hj2
          exact hf
        · exact hall j e2 (by omega) hj2
      · right
        refine ⟨i, e, by omega, he, ht, ?_⟩
        intro j e2 h1 h2 h3
        by_cases hjn : j = n
        · subst hjn
          rw [hget] at h3
          cases h3
          exact hf
        · exact hl j e2 h1 (by omega) h3

/-- A history without a terminal event, or the terminal event closest to its end. -/
theorem last_terminal_or_none (h : List HistoryEvent) :
    (∀ e ∈ h, e.Typ.isTerminal = false) ∨ ∃ (i : Nat) (e : HistoryEvent), IsLastTerminal h i e := by
  rcases last_terminal_cases h h.length (le_refl _) with hall | ⟨i, e, hi, he, ht, hl⟩
  · left
    intro e hmem
    obtain ⟨j, hj, hje⟩ := List.getElem_of_mem hmem
    exact hall j e hj (by rw [List.getElem?_eq_getElem hj, hje])
  · right
    refine ⟨i, e, he, ht, ?_⟩
    intro j e2 h1 h3
    have hj : j < h.length := by
      rcases Nat.lt_or_ge j h.length with hlt | hge
      · exact hlt
      · rw [List.getElem?_eq_none hge] at h3
        cases h3
    exact hl j e2 h1 hj h3

theorem switchEvent_returns {T : Type} (z : T) (From : Decoder T) (heap : Nat)
    (e : HistoryEvent) (o : Outcome T)
    (hattr : e.Typ = .WorkflowExecutionFinished →
      ∃ a, e.Attributes = .ExecutionCompleted (some a))
    (hs : switchEvent z From heap e = some o) : o.Returns := by
  obtain ⟨sq, ts, ty, attrs⟩ := e
  simp only at hattr
  cases ty with
  | WorkflowExecutionFinished =>
    obtain ⟨a, ha⟩ := hattr rfl
    subst ha
    simp only [switchEvent] at hs
    split at hs
    · simp only [Option.some.injEq] at hs
      exact ⟨_, _, hs.symm⟩
    · split at hs
      · simp only [Option.some.injEq] at hs
        exact ⟨_, _, hs.symm⟩
      · simp only [Option.some.injEq] at hs
        exact ⟨_, _, hs.symm⟩
  | WorkflowExecutionCanceled =>
    simp only [switchEvent, Option.some.injEq] at hs
    exact ⟨_, _, hs.symm⟩
  | WorkflowExecutionTerminated =>
    simp only [switchEvent, Option.some.injEq] at hs
    exact ⟨_, _, hs.symm⟩
  | WorkflowExecutionStarted => simp [switchEvent] at hs
  | SignalReceived => simp [switchEvent] at hs
  | other tag => simp [switchEvent] at hs

theorem switchEvent_finished_nil_pointer {T : Type} (z : T) (From : Decoder T) (heap : Nat)
    (e : HistoryEvent) (hty : e.Typ = .WorkflowExecutionFinished)
    (hattr : e.Attributes = .ExecutionCompleted none) :
    switchEvent z From heap e = some (.panicked .nilDereference) := by
  obtain ⟨sq, ts, ty, attrs⟩ := e
  simp only at hty hattr
  subst hty
  subst hattr
  rfl

theorem switchEvent_finished_other_payload {T : Type} (z : T) (From : Decoder T) (heap : Nat)
    (e : HistoryEvent) (hty : e.Typ = .WorkflowExecutionFinished)
    (hattr : ∀ a, e.Attributes ≠ .ExecutionCompleted a) :
    switchEvent z From heap e = some (.panicked .typeAssertion) := by
  obtain ⟨sq, ts, ty, attrs⟩ := e
  simp only at hty hattr
  subst hty
  cases attrs with
  | ExecutionCompleted a => exact absurd rfl (hattr a)
  | absent => rfl
  | ExecutionStarted a => rfl
  | ExecutionCanceled => rfl
  | SignalReceived a => rfl
  | other tag => rfl

/-- C9, counterexample: on a history whose last event is WorkflowExecutionFinished
without attributes the call aborts on the type assertion of the attributes, and
on a `Client` that is not the `*client` of this package it aborts on the type
assertion of the client, although the wait succeeded. -/
theorem C9_counterexample_failed_type_assertion :
    GetWorkflowResult 0 sampleDecoder initHeap 3
        (.own (some (clientWith historyNoAttributes 0))) sampleInstance =
      .panicked .typeAssertion ∧
    GetWorkflowResult 0 sampleDecoder initHeap 3 (.other (.returned () none)) sampleInstance =
      .panicked .typeAssertion := by
  constructor <;> rfl

/-- C9, amended: for a `*client` of this package whose wait succeeds and every
history the backend returns, `GetWorkflowResult` returns a value or an error
if the terminal event closest to the end of the history, when it is
WorkflowExecutionFinished, carries a non-nil `*ExecutionCompletedAttributes`;
if that event is WorkflowExecutionFinished with a nil
`*ExecutionCompletedAttributes` the call aborts on the nil dereference, and if
its attributes are absent or the payload of another event type the call aborts
on the failed type assertion. For a `Client` of another type whose wait
succeeds the call aborts on the failed type assertion of the client. -/
theorem C9_returns_on_well_typed_attributes {T : Type} (z : T) (From : Decoder T)
    (heap ticks : Nat) (ic : client) (b : Backend) (inst : Instance) (h : List HistoryEvent)
    (hwait : ic.WaitForWorkflowInstance heap ticks inst = .returned () none)
    (hback : ic.backend = some b)
    (hfetch : b.GetWorkflowInstanceHistory inst = .ok h) :
    ((∀ (i : Nat) (e : HistoryEvent), IsLastTerminal h i e →
        e.Typ = .WorkflowExecutionFinished →
        ∃ a, e.Attributes = .ExecutionCompleted (some a)) →
      (GetWorkflowResult z From heap ticks (.own (some ic)) inst).Returns) ∧
    (∀ (i : Nat) (e : HistoryEvent), IsLastTerminal h i e →
      e.Typ = .WorkflowExecutionFinished → e.Attributes = .ExecutionCompleted none →
      GetWorkflowResult z From heap ticks (.own (some ic)) inst =
        .panicked .nilDereference) ∧
    (∀ (i : Nat) (e : HistoryEvent), IsLastTerminal h i e →
      e.Typ = .WorkflowExecutionFinished → (∀ a, e.Attributes ≠ .ExecutionCompleted a) →
      GetWorkflowResult z From heap ticks (.own (some ic)) inst =
        .panicked .typeAssertion) ∧
    GetWorkflowResult z From heap ticks (.other (.returned () none)) inst =
      .panicked .typeAssertion := by
  refine ⟨?_, ?_, ?_, rfl⟩
  · intro hattr
    rcases last_terminal_or_none h with hall | ⟨i, e, hlast⟩
    · rw [getWorkflowResult_of_none z From heap ticks ic b inst h hwait hback hfetch hall]
      exact ⟨_, _, rfl⟩
    · have hres :=
        getWorkflowResult_of_last z From heap ticks ic b inst h hwait hback hfetch i e hlast
      exact switchEvent_returns z From heap e _ (hattr i e hlast) hres.symm
  · intro i e hlast hty hattr
    have hres :=
      getWorkflowResult_of_last z From heap ticks ic b inst h hwait hback hfetch i e hlast
    rw [switchEvent_finished_nil_pointer z From heap e hty hattr] at hres
    exact Option.some.inj hres
  · intro i e hlast hty hattr
    have hres :=
      getWorkflowResult_of_last z From heap ticks ic b inst h hwait hback hfetch i e hlast
    rw [switchEvent_finished_other_payload z From heap e hty hattr] at hres
    exact Option.some.inj hres

theorem isLastTerminal_historyFailed_unique (i : Nat) (e : HistoryEvent)
    (hlast : IsLastTerminal historyFailed i e) : e = finishedEvent "" "boom" := by
  obtain ⟨he, ht, _⟩ := hlast
  rcases i with _ | _ | i
  · simp [historyFailed] at he
    subst he
    simp [startedEvent, NewHistoryEvent, EventType.isTerminal] at ht
  · simp [historyFailed] at he
    exact he.symm
  · simp [historyFailed] at he

/-- C9, witness: the history started, finished with the error "boom". -/
theorem C9_returns_on_well_typed_attributes_witness :
    (GetWorkflowResult 0 sampleDecoder initHeap 3
      (.own (some (clientWith historyFailed 0))) sampleInstance).Returns :=
  (C9_returns_on_well_typed_attributes 0 sampleDecoder initHeap 3 (clientWith historyFailed 0)
    (backendWith historyFailed) sampleInstance historyFailed rfl rfl rfl).1 (by
      intro i e hlast _
      rw [isLastTerminal_historyFailed_unique i e hlast]
      exact ⟨_, rfl⟩)

/-- A wait that returns nil was made on a client with a clock and a backend. -/
theorem waitForWorkflowInstance_returned (ic : client) (heap ticks : Nat) (inst : Instance)
    (err : Option GoError)
    (hwait : ic.WaitForWorkflowInstance heap ticks inst = .returned () err) :
    (∃ clock, ic.clock = some clock) ∧ ∃ b, ic.backend = some b := by
  unfold client.WaitForWorkflowInstance at hwait
  split at hwait
  · cases hwait
  · split at hwait
    · cases hwait
    · exact ⟨⟨_, by assumption⟩, ⟨_, by assumption⟩⟩

/-! ## Timestamps of the events the client builds -/

/-- The start event of `CreateWorkflowInstance` carries the reading of the
injected clock. -/
theorem createWorkflowInstance_timestamp {W A : Type} (c : client) (amb : Ambient)
    (heap : Nat) (hp : Helpers W A) (options : WorkflowInstanceOptions) (wf : W)
    (args : List A) :
    ∀ call ∈ (c.CreateWorkflowInstance amb heap hp options wf args).calls,
      some call.eventTimestamp = c.clock.map Clock.Now := by
  intro call hmem
  unfold client.CreateWorkflowInstance at hmem
  split at hmem
  · simp at hmem
  · split at hmem
    · simp at hmem
    · rename_i clock hclock
      dsimp only at hmem
      split at hmem
      · simp at hmem
      · split at hmem <;>
          · simp only [List.mem_singleton] at hmem
            subst hmem
            rw [hclock]
            rfl

/-- The signal event of `SignalWorkflow` carries the reading of the injected clock. -/
theorem signalWorkflow_timestamp {W A : Type} (c : client) (heap : Nat) (hp : Helpers W A)
    (instanceID name : String) (arg : A) :
    ∀ call ∈ (c.SignalWorkflow heap hp instanceID name arg).calls,
      some call.eventTimestamp = c.clock.map Clock.Now := by
  intro call hmem
  unfold client.SignalWorkflow at hmem
  split at hmem
  · simp at hmem
  · split at hmem
    · simp at hmem
    · rename_i clock hclock
      dsimp only at hmem
      split at hmem
      · simp at hmem
      · simp only [List.mem_singleton] at hmem
        subst hmem
        rw [hclock]
        rfl

/-- The cancellation event of `CancelWorkflowInstance` carries the ambient
wall-clock reading, whatever the injected clock shows. -/
theorem cancelWorkflowInstance_timestamp (c : client) (amb : Ambient) (inst : Instance) :
    ∀ call ∈ (c.CancelWorkflowInstance amb inst).calls,
      call.eventTimestamp = amb.timeNow := by
  intro call hmem
  unfold client.CancelWorkflowInstance at hmem
  dsimp only at hmem
  split at hmem
  · simp at hmem
  · simp only [List.mem_singleton] at hmem
    subst hmem
    rfl

/-- C8, failing input: with the injected clock fixed at 100 and the same
instance, two runs of `CancelWorkflowInstance` under ambient wall-clock
readings 200 and 300 pass the backend cancellation events stamped 200 and 300:
neither is the reading of the injected clock, and the two runs differ. -/
theorem C8_cancel_event_stamped_by_wall_clock :
    ((clientWith [] 100).CancelWorkflowInstance { timeNow := 200, uuidNewString := "u" }
        sampleInstance).calls.map BackendCall.eventTimestamp = [200] ∧
    ((clientWith [] 100).CancelWorkflowInstance { timeNow := 300, uuidNewString := "u" }
        sampleInstance).calls.map BackendCall.eventTimestamp = [300] ∧
    (clientWith [] 100).clock.map Clock.Now = some 100 := by
  refine ⟨rfl, rfl, rfl⟩

/-- A `Client` whose wait returns nil is a non-nil `*client` of this package whose
own wait returns nil, or a value of another type. -/
theorem client_wait_succeeds_cases (c : Client) (heap ticks : Nat) (inst : Instance)
    (hwait : c.WaitForWorkflowInstance heap ticks inst = .returned () none) :
    (∃ ic, c = .own (some ic) ∧ ic.WaitForWorkflowInstance heap ticks inst = .returned () none) ∨
    c = .other (.returned () none) := by
  cases c with
  | absent => simp [Client.WaitForWorkflowInstance] at hwait
  | own ic =>
    cases ic with
    | none => simp [Client.WaitForWorkflowInstance] at hwait
    | some ic => exact Or.inl ⟨ic, rfl, hwait⟩
  | other wait =>
    simp only [Client.WaitForWorkflowInstance] at hwait
    subst hwait
    exact Or.inr rfl

/-! ## Properties of the analyzer -/

mutual
theorem inspectNode_eq_flatMap :
    ∀ n : Node, inspectNode n = n.subnodes.flatMap checkNode
  | .Ident pos name uses => by simp [inspectNode, Node.subnodes]
  | .SelectorExpr x sel => by
    simp [inspectNode, Node.subnodes, inspectNode_eq_flatMap x]
  | .StarExpr pos x => by
    simp [inspectNode, Node.subnodes, inspectNode_eq_flatMap x]
  | .ParenExpr pos x => by
    simp [inspectNode, Node.subnodes, inspectNode_eq_flatMap x]
  | .CallExpr fn args => by
    simp [inspectNode, Node.subnodes, inspectNode_eq_flatMap fn, inspectNodes_eq_flatMap args]
  | .RangeStmt pos kv x t body => by
    simp [inspectNode, Node.subnodes, inspectNode_eq_flatMap x, inspectNodes_eq_flatMap kv,
      inspectNodes_eq_flatMap body]
  | .SelectStmt pos body => by
    simp [inspectNode, Node.subnodes, inspectNodes_eq_flatMap body]
  | .GoStmt pos call => by
    simp [inspectNode, Node.subnodes, inspectNode_eq_flatMap call]
  | .Other pos kind children => by
    simp [inspectNode, Node.subnodes, inspectNodes_eq_flatMap children]
theorem inspectNodes_eq_flatMap :
    ∀ ns : List Node, inspectNodes ns = (subnodesOf ns).flatMap checkNode
  | [] => by simp [inspectNodes, subnodesOf]
  | n :: ns => by
    simp [inspectNodes, subnodesOf, inspectNode_eq_flatMap n, inspectNodes_eq_flatMap ns]
end

/-- Whatever `run` reports on entering a node inside a workflow function is among the
diagnostics of the pass. -/
theorem checkNode_mem_run (decls : List Decl) (n : FuncDecl) (hdecl : Decl.FuncDecl n ∈ decls)
    (hwf : isWorkflow n = true) (m : Node) (hm : m ∈ n.nodes) (d : Diagnostic)
    (hd : d ∈ checkNode m) : d ∈ run decls := by
  unfold run
  rw [List.mem_flatMap]
  refine ⟨.FuncDecl n, hdecl, ?_⟩
  simp only [inspectDecl, hwf, Bool.not_true, Bool.false_eq_true, if_false, List.mem_append]
  right
  rw [inspectNodes_eq_flatMap, List.mem_flatMap]
  exact ⟨m, hm, hd⟩

/-- A function declaration that `isWorkflow` rejects contributes no diagnostic. -/
theorem inspectDecl_not_workflow (n : FuncDecl) (hwf : isWorkflow n = false) :
    inspectDecl (.FuncDecl n) = [] := by
  simp [inspectDecl, hwf]

/-- Every diagnostic of a declaration is reported by the function declaration case
or on entering one of the nodes the traversal visits. -/
theorem mem_inspectDecl (decl : Decl) (d : Diagnostic) (hd : d ∈ inspectDecl decl) :
    (∃ n, decl = .FuncDecl n ∧ d ∈ checkFuncDecl n) ∨ ∃ m ∈ decl.visited, d ∈ checkNode m := by
  cases decl with
  | FuncDecl n =>
    by_cases hwf : isWorkflow n = true
    · simp only [inspectDecl, hwf, Bool.not_true, Bool.false_eq_true, if_false,
        List.mem_append] at hd
      rcases hd with hd | hd
      · exact Or.inl ⟨n, rfl, hd⟩
      · rw [inspectNodes_eq_flatMap, List.mem_flatMap] at hd
        obtain ⟨m, hm, hdm⟩ := hd
        exact Or.inr ⟨m, by simpa [Decl.visited, hwf, FuncDecl.nodes] using hm, hdm⟩
    · simp [inspectDecl, hwf] at hd
  | GenDecl specs =>
    simp only [inspectDecl] at hd
    rw [inspectNodes_eq_flatMap, List.mem_flatMap] at hd
    obtain ⟨m, hm, hdm⟩ := hd
    exact Or.inr ⟨m, by simpa [Decl.visited] using hm, hdm⟩

theorem firstChar_msgNoReturn (name : String) : firstChar (msgNoReturn name) = some 'w' := by
  obtain ⟨cs⟩ := name
  rfl

theorem firstChar_msgMoreThanTwo (name : String) :
    firstChar (msgMoreThanTwo name) = some 'w' := by
  obtain ⟨cs⟩ := name
  rfl

theorem firstChar_msgLastNotError (name : String) :
    firstChar (msgLastNotError name) = some 'w' := by
  obtain ⟨cs⟩ := name
  rfl

theorem checkVar_message (obj : ScopeObject) (d : Diagnostic) (hd : d ∈ checkVar obj) :
    d.Message = msgChan ∨ d.Message = msgWaitGroup := by
  have hnamed : ∀ o, d ∈ checkNamed obj o → d.Message = msgWaitGroup := by
    intro o ho
    unfold checkNamed at ho
    split at ho
    · simp at ho
    · split at ho
      · simp at ho
      · split at ho
        · split at ho
          · simp only [List.mem_singleton] at ho
            subst ho
            rfl
          · simp at ho
        · simp at ho
  unfold checkVar at hd
  split at hd
  · simp only [List.mem_singleton] at hd
    subst hd
    exact Or.inl rfl
  · exact Or.inr (hnamed _ hd)
  · exact Or.inr (hnamed _ hd)
  · simp at hd

mutual
theorem checkVarsInScope_message :
    ∀ (s : Scope) (d : Diagnostic), d ∈ checkVarsInScope s →
      d.Message = msgChan ∨ d.Message = msgWaitGroup
  | .mk objects children, d, hd => by
    simp only [checkVarsInScope, List.mem_append, List.mem_flatMap] at hd
    rcases hd with ⟨obj, _, hobj⟩ | hd
    · exact checkVar_message obj d hobj
    · exact checkVarsInScopes_message children d hd
theorem checkVarsInScopes_message :
    ∀ (ss : List Scope) (d : Diagnostic), d ∈ checkVarsInScopes ss →
      d.Message = msgChan ∨ d.Message = msgWaitGroup
  | [], d, hd => by simp [checkVarsInScopes] at hd
  | s :: ss, d, hd => by
    simp only [checkVarsInScopes, List.mem_append] at hd
    rcases hd with hd | hd
    · exact checkVarsInScope_message s d hd
    · exact checkVarsInScopes_message ss d hd
end

/-- The function declaration case of `run` reports no `time` diagnostic. -/
theorem checkFuncDecl_not_time (n : FuncDecl) (d : Diagnostic) (hd : d ∈ checkFuncDecl n) :
    d.Message ≠ msgTimeNow ∧ d.Message ≠ msgTimeSleep := by
  have hkinds : firstChar d.Message = some 'w' ∨ d.Message = msgChan ∨
      d.Message = msgWaitGroup := by
    have hscope : ∀ d2 : Diagnostic,
        d2 ∈ (match n.Typ.scope with
          | some funcScope => checkVarsInScope funcScope
          | none => []) →
        d2.Message = msgChan ∨ d2.Message = msgWaitGroup := by
      intro d2 h2
      split at h2
      · exact checkVarsInScope_message _ d2 h2
      · simp at h2
    simp only [checkFuncDecl] at hd
    split at hd
    · simp only [List.singleton_append, List.mem_cons] at hd
      rcases hd with rfl | hd
      · exact Or.inl (firstChar_msgNoReturn _)
      · exact Or.inr (hscope d hd)
    · split at hd
      · simp only [List.singleton_append, List.mem_cons] at hd
        rcases hd with rfl | hd
        · exact Or.inl (firstChar_msgNoReturn _)
        · exact Or.inr (hscope d hd)
      · split at hd
        · simp only [List.mem_singleton] at hd
          subst hd
          exact Or.inl (firstChar_msgMoreThanTwo _)
        · split at hd
          · exact Or.inr (hscope d hd)
          · simp only [List.mem_append] at hd
            rcases hd with hd | hd
            · split at hd
              · simp only [List.mem_singleton] at hd
                subst hd
                exact Or.inl (firstChar_msgLastNotError _)
              · simp at hd
            · exact Or.inr (hscope d hd)
  constructor
  · intro heq
    rw [heq] at hkinds
    revert hkinds
    decide
  · intro heq
    rw [heq] at hkinds
    revert hkinds
    decide

/-- A `time` diagnostic reported on entering a node is for a call whose callee is a
selector of that name on an import of "time", at the position of the call. -/
theorem checkNode_time (m : Node) (d : Diagnostic) (hd : d ∈ checkNode m) :
    (d.Message = msgTimeNow →
      ∃ (localName : String) (args : List Node),
        m = .CallExpr (timeSelector d.Pos localName "Now") args) ∧
    (d.Message = msgTimeSleep →
      ∃ (localName : String) (args : List Node),
        m = .CallExpr (timeSelector d.Pos localName "Sleep") args) := by
  cases m with
  | Ident pos name uses => simp [checkNode] at hd
  | SelectorExpr x sel => simp [checkNode] at hd
  | StarExpr pos x => simp [checkNode] at hd
  | ParenExpr pos x => simp [checkNode] at hd
  | Other pos kind children => simp [checkNode] at hd
  | SelectStmt pos body =>
    simp only [checkNode, List.mem_singleton] at hd
    subst hd
    exact ⟨fun h => absurd h (by decide : msgSelect ≠ msgTimeNow),
      fun h => absurd h (by decide : msgSelect ≠ msgTimeSleep)⟩
  | GoStmt pos call =>
    simp only [checkNode, List.mem_singleton] at hd
    subst hd
    exact ⟨fun h => absurd h (by decide : msgGo ≠ msgTimeNow),
      fun h => absurd h (by decide : msgGo ≠ msgTimeSleep)⟩
  | RangeStmt pos kv x t body =>
    simp only [checkNode] at hd
    split at hd
    · simp at hd
    · simp only [List.mem_singleton] at hd
      subst hd
      exact ⟨fun h => absurd h (by decide : msgMap ≠ msgTimeNow),
        fun h => absurd h (by decide : msgMap ≠ msgTimeSleep)⟩
    · simp only [List.mem_singleton] at hd
      subst hd
      exact ⟨fun h => absurd h (by decide : msgChan ≠ msgTimeNow),
        fun h => absurd h (by decide : msgChan ≠ msgTimeSleep)⟩
    · simp at hd
  | CallExpr fn args =>
    simp only [checkNode] at hd
    split at hd
    · rename_i pos localName path id
      split at hd
      · rename_i hpath
        subst hpath
        split at hd
        · rename_i hid
          subst hid
          simp only [List.mem_singleton] at hd
          subst hd
          constructor
          · intro _
            exact ⟨localName, args, rfl⟩
          · intro h
            exact absurd h (by decide : msgTimeNow ≠ msgTimeSleep)
        · split at hd
          · rename_i hid
            subst hid
            simp only [List.mem_singleton] at hd
            subst hd
            constructor
            · intro h
              exact absurd h (by decide : msgTimeSleep ≠ msgTimeNow)
            · intro _
              exact ⟨localName, args, rfl⟩
          · simp at hd
      · simp at hd
    · simp at hd

/-- C4, failing input: `func W(ctx workflow.Context) (a, b int, err error)` is
accepted as a workflow and declares three return values in two fields; `run`
compares the number of fields with two and reports nothing for it, while the
three values of `(int, string, error)`, one to a field, are reported. -/
theorem C4_grouped_results_not_reported :
    isWorkflow workflowGroupedResults = true ∧
    NumFields (workflowGroupedResults.Typ.Results.getD []) = 3 ∧
    run [.FuncDecl workflowGroupedResults] = [] ∧
    NumFields (workflowThreeResults.Typ.Results.getD []) = 3 ∧
    run [.FuncDecl workflowThreeResults] = [⟨1, msgMoreThanTwo "W"⟩] := by
  refine ⟨by decide, by decide, by decide, by decide, by decide⟩

/-- C5, failing input: a range over a parameter of the defined type
`type Registry map[string]int` inside a workflow function gets no diagnostic,
while the same range over a parameter of type `map[string]int` is reported. -/
theorem C5_defined_map_type_not_reported :
    isWorkflow (workflowRanging (typeIdent 32 "Registry") registryType) = true ∧
    run [.FuncDecl (workflowRanging (typeIdent 32 "Registry") registryType)] = [] ∧
    run [.FuncDecl (workflowRanging mapTypeExpr mapType)] = [⟨60, msgMap⟩] := by
  refine ⟨by decide, by decide, by decide⟩

/-- C6, failing input: in `func W(ctx workflow.Context) (int, string, error)` with
a local `var wg sync.WaitGroup`, `run` reports the return values and returns
before it checks the scope, so `wg` gets no diagnostic; with the result list
`(int, error)`, or without results, the same variable is reported. -/
theorem C6_wait_group_missed_after_return_shape_report :
    run [.FuncDecl (workflowWithWaitGroup (some threeResults) threeValues)] =
      [⟨1, msgMoreThanTwo "W"⟩] ∧
    run [.FuncDecl (workflowWithWaitGroup (some twoResults) twoValues)] =
      [⟨64, msgWaitGroup⟩] ∧
    run [.FuncDecl (workflowWithWaitGroup none [])] =
      [⟨1, msgNoReturn "W"⟩, ⟨64, msgWaitGroup⟩] := by
  refine ⟨by decide, by decide, by decide⟩

/-- C10, failing input: for a file whose only declaration is the package-level
`var started = time.Now()`, `run` reports the call, and for the package-level
`var spawn = func() { go work() }` it reports the `go` statement, although
neither is inside a function declaration. -/
theorem C10_package_level_call_reported :
    run [packageLevelNow] = [⟨15, msgTimeNow⟩] ∧
    run [packageLevelFuncLit] = [⟨22, msgGo⟩] := by
  refine ⟨by decide, by decide⟩

/-- C7, counterexample: with `import . "time"`, the call `Now()` inside a workflow
function gets no diagnostic. -/
theorem C7_counterexample_dot_import :
    isWorkflow (workflowCalling dotImportedNow) = true ∧
    run [.FuncDecl (workflowCalling dotImportedNow)] = [] := by
  refine ⟨by decide, by decide⟩

/-- C7, amended: for every call expression inside a workflow function whose callee
is written `p.Now` or `p.Sleep`, with `p` an identifier that denotes an import
of the package with path "time" under any local name, `run` reports the
matching diagnostic at the call; and every "`time.Now` is not allowed" or
"`time.Sleep` is not allowed" diagnostic of `run` is at a call so written, with
that very name, among the nodes the traversal enters: a call of a dot-imported
name, of a function of another package or of a receiver, or of another function
of "time" gets no such diagnostic. -/
theorem C7_qualified_time_calls (decls : List Decl) :
    (∀ (n : FuncDecl) (pos : Pos) (localName : String) (args : List Node),
      Decl.FuncDecl n ∈ decls → isWorkflow n = true →
      (Node.CallExpr (timeSelector pos localName "Now") args ∈ n.nodes →
        (⟨pos, msgTimeNow⟩ : Diagnostic) ∈ run decls) ∧
      (Node.CallExpr (timeSelector pos localName "Sleep") args ∈ n.nodes →
        (⟨pos, msgTimeSleep⟩ : Diagnostic) ∈ run decls)) ∧
    (∀ d ∈ run decls, d.Message = msgTimeNow →
      ∃ (decl : Decl) (localName : String) (args : List Node), decl ∈ decls ∧
        Node.CallExpr (timeSelector d.Pos localName "Now") args ∈ decl.visited) ∧
    (∀ d ∈ run decls, d.Message = msgTimeSleep →
      ∃ (decl : Decl) (localName : String) (args : List Node), decl ∈ decls ∧
        Node.CallExpr (timeSelector d.Pos localName "Sleep") args ∈ decl.visited) := by
  have hsound : ∀ d ∈ run decls, ∃ decl ∈ decls,
      (∃ n, decl = .FuncDecl n ∧ d ∈ checkFuncDecl n) ∨ ∃ m ∈ decl.visited, d ∈ checkNode m := by
    intro d hd
    unfold run at hd
    rw [List.mem_flatMap] at hd
    obtain ⟨decl, hdecl, hdd⟩ := hd
    exact ⟨decl, hdecl, mem_inspectDecl decl d hdd⟩
  refine ⟨?_, ?_, ?_⟩
  · intro n pos localName args hdecl hwf
    constructor
    · intro hin
      exact checkNode_mem_run decls n hdecl hwf _ hin _
        (by simp [checkNode, timeSelector, Node.Pos])
    · intro hin
      exact checkNode_mem_run decls n hdecl hwf _ hin _
        (by simp [checkNode, timeSelector, Node.Pos])
  · intro d hd hmsg
    obtain ⟨decl, hdecl, hsrc | ⟨m, hm, hdm⟩⟩ := hsound d hd
    · obtain ⟨n, _, hdn⟩ := hsrc
      exact absurd hmsg (checkFuncDecl_not_time n d hdn).1
    · obtain ⟨localName, args, rfl⟩ := (checkNode_time m d hdm).1 hmsg
      exact ⟨decl, localName, args, hdecl, hm⟩
  · intro d hd hmsg
    obtain ⟨decl, hdecl, hsrc | ⟨m, hm, hdm⟩⟩ := hsound d hd
    · obtain ⟨n, _, hdn⟩ := hsrc
      exact absurd hmsg (checkFuncDecl_not_time n d hdn).2
    · obtain ⟨localName, args, rfl⟩ := (checkNode_time m d hdm).2 hmsg
      exact ⟨decl, localName, args, hdecl, hm⟩

/-- C7, witness: the call `t.Now()` in a file with `import t "time"`. -/
theorem C7_qualified_time_calls_witness :
    (⟨60, msgTimeNow⟩ : Diagnostic) ∈ run [.FuncDecl (workflowCalling renamedImportNow)] :=
  ((C7_qualified_time_calls [.FuncDecl (workflowCalling renamedImportNow)]).1
    (workflowCalling renamedImportNow) 60 "t" [] (List.mem_singleton.mpr rfl) (by decide)).1
    (by simp [FuncDecl.nodes, FuncDecl.children, fieldTypes, subnodesOf, Node.subnodes,
      workflowCalling, ctxField, typeIdent, returnNil, renamedImportNow, timeSelector])

end GoWorkflows
